import Mathlib

/-!
Shallow embedding of the transaction resolution engine of the
etherscan-tui-go repository (src/internal/etherscan/client.go) and proofs
about it.  Pure helper functions (hexToDecimal, stringToBigInt,
calculateConfirmations, formatValue, formatGasPrice, formatTransactionFee,
formatTransactionType) are translated directly from the Go source; the
response classification, receipt handling and the merge step of
FetchTransaction are embedded as functions over decoded response values.
Machine integers are modelled with Nat/Int; the Go big.Float arithmetic of
hexToFloat is modelled exactly (binary floating point of precision
max(64, bit length) with round-to-nearest-even, and the shortest
round-trip decimal rendering of math/big).
-/

namespace EtherscanTui

/-- Go strings.HasPrefix, on the underlying character lists. -/
def goStartsWith (s pre : String) : Bool :=
  pre.data.isPrefixOf s.data

/-- Go strings.Contains: sub occurs as a contiguous substring of s. -/
def goContains (s sub : String) : Bool :=
  (List.range (s.data.length + 1)).any (fun i => sub.data.isPrefixOf (s.data.drop i))

/-- Digit value accepted by Go big.Int.SetString for a given base
(bases up to 36: decimal digits plus case-insensitive letters). -/
def digitVal (base : Nat) (c : Char) : Option Nat :=
  let d : Option Nat :=
    if '0' ≤ c ∧ c ≤ '9' then some (c.toNat - 48)
    else if 'a' ≤ c ∧ c ≤ 'z' then some (c.toNat - 97 + 10)
    else if 'A' ≤ c ∧ c ≤ 'Z' then some (c.toNat - 65 + 10)
    else none
  match d with
  | some v => if v < base then some v else none
  | none => none

/-- Value of a nonempty, all-valid digit string (Go big.Int.SetString body
after the optional sign); any invalid character or an empty string fails. -/
def goDigitsValAux (base : Nat) : List Char → Nat → Option Nat
  | [], acc => some acc
  | c :: cs, acc =>
    match digitVal base c with
    | some d => goDigitsValAux base cs (base * acc + d)
    | none => none

/-- Go big.Int.SetString digit scan: the whole (nonempty) string must
consist of valid digits for the base. -/
def goDigitsVal (base : Nat) (cs : List Char) : Option Nat :=
  match cs with
  | [] => none
  | _ => goDigitsValAux base cs 0

/-- Go big.Int.SetString with an explicit base: optional leading sign,
then a nonempty run of digits covering the whole string. -/
def goSetString (base : Nat) (cs : List Char) : Option Int :=
  match cs with
  | [] => none
  | c :: rest =>
    if c = '+' then (goDigitsVal base rest).map (fun n => (n : Int))
    else if c = '-' then (goDigitsVal base rest).map (fun n => -(n : Int))
    else (goDigitsVal base cs).map (fun n => (n : Int))

/-- Little-endian decimal digits of n, with explicit fuel (fuel n is
always sufficient since a positive number has at most n digits). -/
def digitsLE : Nat → Nat → List Nat
  | 0, _ => []
  | f + 1, n => if n = 0 then [] else n % 10 :: digitsLE f (n / 10)

/-- Big-endian decimal digits of n (empty for n = 0). -/
def digitsBE (n : Nat) : List Nat :=
  (digitsLE n n).reverse

/-- Number of decimal digits of n (0 for n = 0). -/
def numDigits (n : Nat) : Nat :=
  (digitsLE n n).length

/-- Decimal string of a nonnegative big integer, as printed by Go. -/
def natDecString (n : Nat) : String :=
  Nat.repr n

/-- Decimal string of a big integer as printed by Go big.Int.String or
by fmt with the d verb. -/
def goIntString (v : Int) : String :=
  if v < 0 then "-" ++ Nat.repr v.natAbs else Nat.repr v.natAbs

/-- client.go stringToBigInt: strings with prefix 0x are parsed in base
16 after removing the prefix, all others in base 10; nil (none) on
failure. -/
def stringToBigInt (s : String) : Option Int :=
  if goStartsWith s "0x" then goSetString 16 (s.data.drop 2)
  else goSetString 10 s.data

/-- client.go hexToDecimal: empty or non-0x-prefixed input is returned
unchanged, a bare 0x becomes 0, malformed hex after the prefix returns
the input unchanged, otherwise the decimal string of the parsed value. -/
def hexToDecimal (hexStr : String) : String :=
  if hexStr = "" ∨ goStartsWith hexStr "0x" = false then hexStr
  else
    let trimmed := hexStr.data.drop 2
    if trimmed = [] then "0"
    else
      match goSetString 16 trimmed with
      | none => hexStr
      | some bi => goIntString bi

/-- client.go calculateConfirmations: empty operands or a 0x0
transaction block give the empty string, unparsable operands give
error, otherwise latest - tx + 1 clamped below by 0. -/
def calculateConfirmations (latestBlock txBlock : String) : String :=
  if latestBlock = "" ∨ txBlock = "" ∨ txBlock = "0x0" then ""
  else
    match stringToBigInt latestBlock, stringToBigInt txBlock with
    | some latest, some tx =>
      let diff := latest - tx
      if diff < 0 then "0"
      else goIntString (diff + 1)
    | none, _ => "error"
    | some _, none => "error"

/-- Go big.Int.Int64: the low 64 bits of the absolute value reinterpreted
as a signed 64-bit word, then negated (with two-complement wraparound)
when the big integer is negative. -/
def goInt64 (v : Int) : Int :=
  let low : Nat := v.natAbs % 2 ^ 64
  let sv : Int := if low < 2 ^ 63 then (low : Int) else (low : Int) - 2 ^ 64
  if v < 0 then (if sv = -(2 ^ 63) then sv else -sv) else sv

/-- client.go formatTransactionType: empty and bare-0x inputs are
Legacy, parsable values are truncated to int64 and mapped through the
0/1/2/3 labels with a bare decimal default, unparsable input is
returned unchanged. -/
def formatTransactionType (hexStr : String) : String :=
  if hexStr = "" ∨ hexStr = "0x" then "0 (Legacy)"
  else
    match stringToBigInt hexStr with
    | none => hexStr
    | some bi =>
      let val := goInt64 bi
      if val = 0 then "0 (Legacy)"
      else if val = 1 then "1 (Access List)"
      else if val = 2 then "2 (EIP-1559)"
      else if val = 3 then "3 (EIP-4844)"
      else goIntString val

/-- Bit length of a natural number, with explicit fuel. -/
def natBitsAux : Nat → Nat → Nat
  | 0, _ => 0
  | f + 1, n => if n = 0 then 0 else natBitsAux f (n / 2) + 1

/-- Bit length of a natural number (0 for 0), as Go big.Int.BitLen. -/
def natBits (n : Nat) : Nat :=
  natBitsAux n n

/-- Exponent r with 2 ^ r ≤ n / d < 2 ^ (r + 1), for positive n and d. -/
def ratExp2 (n d : Nat) : Int :=
  let r0 : Int := (natBits n : Int) - (natBits d : Int)
  let ge : Bool :=
    if r0 ≥ 0 then decide (n ≥ d * 2 ^ r0.toNat)
    else decide (n * 2 ^ (-r0).toNat ≥ d)
  if ge then r0 else r0 - 1

/-- Round-to-nearest-even binary float quotient n / d at precision p bits
(the Go big.Float Quo with rounding mode ToNearestEven): none for a zero
numerator, otherwise a pair (q, e) with 2 ^ (p - 1) ≤ q < 2 ^ p and
value q * 2 ^ e. -/
def goFloatQuo (n d p : Nat) : Option (Nat × Int) :=
  if n = 0 then none
  else
    let r := ratExp2 n d
    let k : Int := (p : Int) - 1 - r
    let (num, den) :=
      if k ≥ 0 then (n * 2 ^ k.toNat, d) else (n, d * 2 ^ (-k).toNat)
    let q0 := num / den
    let rem := num % den
    let q :=
      if 2 * rem > den then q0 + 1
      else if 2 * rem < den then q0
      else if q0 % 2 = 0 then q0 else q0 + 1
    let e : Int := r - ((p : Int) - 1)
    if q = 2 ^ p then (2 ^ (p - 1), e + 1) else (q, e)

/-- The multiprecision decimal of math/big: a digit list (big-endian, no
trailing zeros) and a decimal exponent, denoting 0.mant * 10 ^ exp. -/
structure GoDecimal where
  mant : List Nat
  exp : Int
  deriving Repr, DecidableEq

/-- Drop trailing zero digits. -/
def stripTrailingZeroDigits (l : List Nat) : List Nat :=
  ((l.reverse).dropWhile (fun d => d = 0)).reverse

/-- The exact decimal of the dyadic number q * 2 ^ e for q > 0
(math/big decimal.init). -/
def decimalOfDyadic (q : Nat) (e : Int) : GoDecimal :=
  if e ≥ 0 then
    let N := q * 2 ^ e.toNat
    ⟨stripTrailingZeroDigits (digitsBE N), (numDigits N : Int)⟩
  else
    let N := q * 5 ^ (-e).toNat
    ⟨stripTrailingZeroDigits (digitsBE N), (numDigits N : Int) + e⟩

/-- Digit of a decimal mantissa at integer index j, 0 outside the range
(math/big decimal.at). -/
def decDigitAt (dm : List Nat) (j : Int) : Nat :=
  if 0 ≤ j ∧ j < (dm.length : Int) then dm.getD j.toNat 0 else 0

/-- math/big decimal shouldRoundUp: look at the first dropped digit,
with a round-to-even rule exactly at a trailing 5. -/
def decShouldRoundUp (dm : List Nat) (n : Nat) : Bool :=
  if n < dm.length then
    let dn := dm.getD n 0
    if dn = 5 ∧ n + 1 = dm.length then
      decide (0 < n ∧ dm.getD (n - 1) 0 % 2 = 1)
    else decide (dn ≥ 5)
  else false

/-- math/big decimal.roundDown: truncate to n digits and strip trailing
zeros. -/
def decRoundDown (d : GoDecimal) (n : Nat) : GoDecimal :=
  if n ≥ d.mant.length then d
  else ⟨stripTrailingZeroDigits (d.mant.take n), d.exp⟩

/-- Scan downward from index j for a digit below 9. -/
def decRoundUpFind (dm : List Nat) : Nat → Option Nat
  | 0 => if dm.getD 0 0 < 9 then some 0 else none
  | j + 1 => if dm.getD (j + 1) 0 < 9 then some (j + 1) else decRoundUpFind dm j

/-- math/big decimal.roundUp: increment the last kept non-9 digit and
truncate there; all nines roll over to a single 1 with a bumped
exponent. -/
def decRoundUp (d : GoDecimal) (n : Nat) : GoDecimal :=
  if n ≥ d.mant.length then d
  else
    match decRoundUpFind d.mant (n - 1) with
    | none => ⟨[1], d.exp + 1⟩
    | some i => ⟨d.mant.take i ++ [d.mant.getD i 0 + 1], d.exp⟩

/-- math/big decimal.round at n digits. -/
def decRound (d : GoDecimal) (n : Nat) : GoDecimal :=
  if n ≥ d.mant.length then d
  else if decShouldRoundUp d.mant n then decRoundUp d n
  else decRoundDown d n

/-- The digit scan of math/big roundShortest: walk the digits of d until
it is distinguished from the lower and upper neighbour midpoints, then
round there. -/
def roundShortestLoop (d : GoDecimal) (lm um : List Nat) (incl : Bool) :
    Nat → Nat → GoDecimal
  | _, 0 => d
  | i, f + 1 =>
    if i < d.mant.length then
      let m := d.mant.getD i 0
      let l := lm.getD i 0
      let u := um.getD i 0
      let okdown := l ≠ m ∨ (incl ∧ i + 1 = lm.length)
      let okup := m ≠ u ∧ (incl ∨ m + 1 < u ∨ i + 1 < um.length)
      if okdown ∧ okup then decRound d (i + 1)
      else if okdown then decRoundDown d (i + 1)
      else if okup then decRoundUp d (i + 1)
      else roundShortestLoop d lm um incl (i + 1) f
    else d

/-- math/big roundShortest for a float q * 2 ^ e of precision p with
normalized mantissa q (so the neighbour midpoints are (2q ∓ 1) * 2 ^ (e-1),
inclusive exactly when q is even). -/
def roundShortest (q : Nat) (e : Int) : GoDecimal :=
  let d := decimalOfDyadic q e
  let lower := decimalOfDyadic (2 * q - 1) (e - 1)
  let upper := decimalOfDyadic (2 * q + 1) (e - 1)
  let incl := q % 2 = 0
  roundShortestLoop d lower.mant upper.mant incl 0 d.mant.length

/-- Decimal digit to character. -/
def digitChar (n : Nat) : Char :=
  Char.ofNat (48 + n)

/-- math/big fmtF for the shortest representation: integer part padded
with zeros as needed, then exactly the remaining fraction digits. -/
def goFmtF (d : GoDecimal) : String :=
  let prec : Nat := (max ((d.mant.length : Int) - d.exp) 0).toNat
  let intPart : List Char :=
    if d.exp > 0 then
      let m := min d.mant.length d.exp.toNat
      (d.mant.take m).map digitChar ++ List.replicate (d.exp.toNat - m) '0'
    else ['0']
  let frac : List Char :=
    if prec > 0 then
      '.' :: (List.range prec).map (fun i => digitChar (decDigitAt d.mant (d.exp + i)))
    else []
  ⟨intPart ++ frac⟩

/-- Go big.Float Text with format f and prec -1 (shortest round-trip
decimal), for a float that is zero (none) or ±q * 2 ^ e. -/
def goFloatText (neg : Bool) (v : Option (Nat × Int)) : String :=
  match v with
  | none => "0"
  | some (q, e) => (if neg then "-" else "") ++ goFmtF (roundShortest q e)

/-- client.go hexToFloat: non-0x input is handed back as a string (done),
bare 0x yields the string 0 ETH, malformed hex yields the input string,
otherwise the value divided by dv as a big.Float of precision
max(64, bit length). -/
def hexToFloat (hexStr : String) (dv : Nat) : Sum String (Bool × Option (Nat × Int)) :=
  if hexStr = "" ∨ goStartsWith hexStr "0x" = false then .inl hexStr
  else
    let trimmed := hexStr.data.drop 2
    if trimmed = [] then .inl "0 ETH"
    else
      match goSetString 16 trimmed with
      | none => .inl hexStr
      | some bi =>
        let p := max (natBits bi.natAbs) 64
        .inr (bi < 0, goFloatQuo bi.natAbs dv p)

/-- client.go formatValue: wei hex to an ETH decimal string. -/
def formatValue (hexStr : String) : String :=
  match hexToFloat hexStr (10 ^ 18) with
  | .inl s => s
  | .inr (neg, v) => goFloatText neg v ++ " ETH"

/-- client.go formatGasPrice: the same value as Gwei and as ETH. -/
def formatGasPrice (hexStr : String) : String :=
  match hexToFloat hexStr (10 ^ 9), hexToFloat hexStr (10 ^ 18) with
  | .inl s, _ => s
  | .inr (neg, v), .inr (nege, ve) =>
    goFloatText neg v ++ " Gwei (" ++ goFloatText nege ve ++ " ETH)"
  | .inr (neg, v), .inl _ => goFloatText neg v ++ " Gwei ( ETH)"

/-- Go strings.TrimPrefix for the 0x prefix, on character lists. -/
def goTrim0x (s : String) : List Char :=
  if goStartsWith s "0x" then s.data.drop 2 else s.data

/-- client.go formatTransactionFee: gasUsed * gasPrice wei rendered as
ETH; empty or unparsable operands give the empty string. -/
def formatTransactionFee (gasUsedHex gasPriceHex : String) : String :=
  if gasUsedHex = "" ∨ gasPriceHex = "" then ""
  else
    match goSetString 16 (goTrim0x gasUsedHex), goSetString 16 (goTrim0x gasPriceHex) with
    | some gu, some gp =>
      let feeWei : Int := gu * gp
      let p := max (natBits feeWei.natAbs) 64
      goFloatText (feeWei < 0) (goFloatQuo feeWei.natAbs (10 ^ 18) p) ++ " ETH"
    | none, _ => ""
    | some _, none => ""

/-- The Transaction record of client.go (all fields are strings as in
the Go struct; from is renamed since it is reserved in Lean). -/
structure Transaction where
  hash : String := ""
  blockNumber : String := ""
  fromAddr : String := ""
  toAddr : String := ""
  value : String := ""
  gas : String := ""
  gasPrice : String := ""
  nonce : String := ""
  transactionIndex : String := ""
  input : String := ""
  type : String := ""
  confirmations : String := ""
  status : String := ""
  timestamp : String := ""
  gasUsed : String := ""
  transactionFee : String := ""
  deriving Repr, DecidableEq

/-- The decoded result field of the transaction-by-hash proxy response:
absent (zero-length raw message), the JSON literal null, a JSON string,
a structured transaction object, or some other shape (whose unmarshal
error text is carried along). -/
inductive RawResult where
  | absent
  | null
  | str (s : String)
  | obj (t : Transaction)
  | other (msg : String)
  deriving Repr, DecidableEq

/-- The decoded transaction-by-hash proxy response envelope: an optional
top-level error message and the raw result. -/
structure ProxyTxResponse where
  error : Option String
  result : RawResult
  deriving Repr, DecidableEq

/-- The response classification of FetchTransaction (client.go lines
89-110): explicit error object first, then absent/null result, then a
string result rendered as a provider error (with a network hint when it
contains the substring Error!), then the structured object. -/
def classifyTxResponse (r : ProxyTxResponse) : Except String Transaction :=
  match r.error with
  | some msg => .error msg
  | none =>
    match r.result with
    | .absent => .error "transaction not found or invalid response"
    | .null => .error "transaction not found or invalid response"
    | .str s =>
      if goContains s "Error!" then
        .error ("Etherscan API error: " ++ s ++ " (Is the hash on the correct network?)")
      else
        .error ("Etherscan API error: " ++ s)
    | .obj t => .ok t
    | .other m => .error ("unexpected response format for result: " ++ m)

/-- Decoded transaction-receipt result fields. -/
structure ReceiptResult where
  status : String := ""
  gasUsed : String := ""
  deriving Repr, DecidableEq

/-- Decoded transaction-receipt proxy response envelope. -/
structure ProxyReceiptResponse where
  error : Option String
  result : ReceiptResult
  deriving Repr, DecidableEq

/-- The decision logic of FetchTransactionReceipt (client.go lines
307-322) after the body has been read and decoded: explicit errors
fail the call, a literally-null result body is a successful Pending
with no gas, and otherwise the receipt status 0x1/0x0 maps to
success/failed with Pending for anything else. -/
def fetchTransactionReceiptCore (body : String) (r : ProxyReceiptResponse) :
    Except String (String × String) :=
  match r.error with
  | some msg => .error msg
  | none =>
    if body = "\x7b\"result\":null\x7d" ∨ body = "\x7b\"result\": null\x7d" then
      .ok ("Pending", "")
    else
      let status :=
        if r.result.status = "0x1" then "success"
        else if r.result.status = "0x0" then "failed"
        else "Pending"
      .ok (status, r.result.gasUsed)

/-- Outcomes of the dependent remote calls issued by FetchTransaction
after the transaction object has been obtained. -/
structure DependentCalls where
  latestBlock : Except String String
  receipt : Except String (String × String)
  timestamp : Except String String

/-- The Go statement status, gasUsed, _ := c.FetchTransactionReceipt(hash):
every error return of FetchTransactionReceipt carries empty status and
gasUsed strings, and the error itself is discarded. -/
def receiptValues (r : Except String (String × String)) : String × String :=
  match r with
  | .ok p => p
  | .error _ => ("", "")

/-- The merge step of FetchTransaction (client.go lines 112-146):
convert the hex fields, attach confirmations (error when the
latest-block call fails), receipt status and gas data, the fee, and the
block timestamp (only for a present, nonzero block and only when the
call succeeds). -/
def fetchTransactionMerge (tx : Transaction) (deps : DependentCalls) : Transaction :=
  let hexBlockNumber := tx.blockNumber
  let hexGasPrice := tx.gasPrice
  let sg := receiptValues deps.receipt
  { tx with
    blockNumber := hexToDecimal tx.blockNumber
    value := formatValue tx.value
    gas := hexToDecimal tx.gas
    gasPrice := formatGasPrice tx.gasPrice
    nonce := hexToDecimal tx.nonce
    transactionIndex := hexToDecimal tx.transactionIndex
    type := formatTransactionType tx.type
    confirmations :=
      match deps.latestBlock with
      | .ok latest => calculateConfirmations latest hexBlockNumber
      | .error _ => "error"
    status := sg.1
    gasUsed := hexToDecimal sg.2
    transactionFee := formatTransactionFee sg.2 hexGasPrice
    timestamp :=
      if hexBlockNumber ≠ "" ∧ hexBlockNumber ≠ "0x0" then
        match deps.timestamp with
        | .ok ts => ts
        | .error _ => tx.timestamp
      else tx.timestamp }

/-- FetchTransaction of client.go over decoded responses: classify the
transaction-by-hash response, and on success merge in the dependent
call results; a classification failure is terminal. -/
def fetchTransaction (r : ProxyTxResponse) (deps : DependentCalls) :
    Except String Transaction :=
  (classifyTxResponse r).map (fun t => fetchTransactionMerge t deps)

/-- Modelled from the spec: the rate-limit detection of the retry policy
of the repository, which is not under src (src carries an older retry-free
FetchTransaction whose signature does not match the tests); per the spec
the classification is tagged Retryable on a case-sensitive substring
match for the ad hoc rate-limit phrases. -/
def isRateLimitMsg (s : String) : Bool :=
  goContains s "rate limit" || goContains s "Max calls per sec"

/-- Modelled from the spec: a transaction-by-hash response is retryable
exactly when it classifies as a string result carrying a rate-limit
message. -/
def retryableTxResponse (r : ProxyTxResponse) : Bool :=
  match r.error, r.result with
  | none, .str s => isRateLimitMsg s
  | _, _ => false

/-- Modelled from the spec: the retry loop of the context-aware
FetchTransaction of the repository, which is not under src. The attempt
sequence abstracts reissuing the same call; the budget abstracts the
context deadline of the caller. A Retryable classification is reissued while
budget remains, any other failure (and an exhausted budget) returns the
last error immediately; the returned index counts the attempts made
after the first. -/
def fetchTxWithRetry (attempts : Nat → ProxyTxResponse) :
    Nat → Nat → Nat × Except String Transaction
  | i, 0 =>
    match classifyTxResponse (attempts i) with
    | .ok t => (i, .ok t)
    | .error e => (i, .error e)
  | i, b + 1 =>
    match classifyTxResponse (attempts i) with
    | .ok t => (i, .ok t)
    | .error e =>
      if retryableTxResponse (attempts i) then fetchTxWithRetry attempts (i + 1) b
      else (i, .error e)

/-- Modelled from the spec: the full resolution under the retry policy,
merging the dependent calls on success. -/
def fetchTransactionRetrying (attempts : Nat → ProxyTxResponse)
    (deps : DependentCalls) (i budget : Nat) : Nat × Except String Transaction :=
  let nr := fetchTxWithRetry attempts i budget
  (nr.1, nr.2.map (fun t => fetchTransactionMerge t deps))

/-- The sixteen lowercase hex digit characters (the character class of
the regular expression 0x[0-9a-f]+ in the spec). -/
def lowerHexDigits : List Char :=
  "0123456789abcdef".data

/-- The numeric value of a lowercase hex digit character. -/
def hexDigitNat (c : Char) : Nat :=
  if c.toNat ≤ 57 then c.toNat - 48 else c.toNat - 87

/-- The integer denoted by a big-endian string of lowercase hex digits. -/
def hexDigitsNatValue (ds : List Char) : Nat :=
  ds.foldl (fun a c => 16 * a + hexDigitNat c) 0

/- ### Helper lemmas -/

theorem digitVal16_of_mem : ∀ c ∈ lowerHexDigits, digitVal 16 c = some (hexDigitNat c) := by
  decide

theorem lowerHex_not_sign : ∀ c ∈ lowerHexDigits, c ≠ '+' ∧ c ≠ '-' := by
  decide

theorem goDigitsValAux_eq_foldl (cs : List Char) :
    ∀ acc : Nat, (∀ c ∈ cs, c ∈ lowerHexDigits) →
      goDigitsValAux 16 cs acc =
        some (cs.foldl (fun a c => 16 * a + hexDigitNat c) acc) := by
  induction cs with
  | nil => intro acc _; rfl
  | cons c cs ih =>
    intro acc h
    have hc := h c (List.mem_cons_self c cs)
    simp only [goDigitsValAux, digitVal16_of_mem c hc, List.foldl_cons]
    exact ih _ (fun d hd => h d (List.mem_cons_of_mem c hd))

theorem goSetString16_of_hex (c : Char) (cs : List Char)
    (h : ∀ d ∈ c :: cs, d ∈ lowerHexDigits) :
    goSetString 16 (c :: cs) = some ((hexDigitsNatValue (c :: cs) : Int)) := by
  have hc := h c (List.mem_cons_self c cs)
  obtain ⟨hp, hm⟩ := lowerHex_not_sign c hc
  simp only [goSetString, if_neg hp, if_neg hm, goDigitsVal,
    goDigitsValAux_eq_foldl (c :: cs) 0 h, Option.map_some]
  rfl

theorem goIntString_ofNat (n : Nat) : goIntString (n : Int) = Nat.repr n := by
  simp [goIntString, Int.natAbs_ofNat]

theorem hexToDecimal_cons (c : Char) (cs : List Char) :
    hexToDecimal ⟨'0' :: 'x' :: c :: cs⟩ =
      (match goSetString 16 (c :: cs) with
       | none => (⟨'0' :: 'x' :: c :: cs⟩ : String)
       | some bi => goIntString bi) := rfl

theorem formatTransactionType_unparsable (s : String) (hs : s ≠ "") (h0 : s ≠ "0x")
    (hp : stringToBigInt s = none) : formatTransactionType s = s := by
  simp [formatTransactionType, hs, h0, hp]

theorem goInt64_eq_self (v : Int) (hlo : -(2 ^ 63) ≤ v) (hhi : v < 2 ^ 63) :
    goInt64 v = v := by
  have h64 : (2 : Nat) ^ 64 = 18446744073709551616 := by norm_num
  have h63 : (2 : Nat) ^ 63 = 9223372036854775808 := by norm_num
  have h63i : (2 : Int) ^ 63 = 9223372036854775808 := by norm_num
  have h64i : (2 : Int) ^ 64 = 18446744073709551616 := by norm_num
  simp only [goInt64]
  have hmod : v.natAbs % 2 ^ 64 = v.natAbs := Nat.mod_eq_of_lt (by omega)
  rw [hmod]
  split_ifs <;> omega

theorem Except_map_eq_ok {ε α β : Type} (f : α → β) (x : Except ε α) (y : β)
    (h : x.map f = .ok y) : ∃ a, x = .ok a ∧ y = f a := by
  cases x with
  | error e => simp [Except.map] at h
  | ok a =>
    refine ⟨a, rfl, ?_⟩
    have : Except.ok (ε := ε) (f a) = .ok y := h
    exact (Except.ok.injEq _ _ ▸ congrArg (fun z => z) this) ▸ (Except.ok.inj this).symm

theorem receiptCore_ok_status (body : String) (r : ProxyReceiptResponse) (s g : String)
    (h : fetchTransactionReceiptCore body r = .ok (s, g)) :
    s = "Pending" ∨ s = "success" ∨ s = "failed" := by
  obtain ⟨err, res⟩ := r
  cases err with
  | some m => exact absurd h (by simp [fetchTransactionReceiptCore])
  | none =>
    simp only [fetchTransactionReceiptCore] at h
    split_ifs at h <;>
      simp only [Except.ok.injEq, Prod.mk.injEq] at h <;>
      first
        | exact Or.inl h.1.symm
        | exact Or.inr (Or.inl h.1.symm)
        | exact Or.inr (Or.inr h.1.symm)

/- ### Claim theorems -/

/-- C3: calculateConfirmations returns the decimal string of
latest - tx + 1 over arbitrary-precision integers for parsable
operands (so 0xb and 0xb give 1, and the result is exact beyond 64
bits), clamps to 0 when the difference is negative, reports error when
a non-empty operand is unparsable, and returns the empty string when
either operand is empty or the transaction block is 0x0. -/
theorem calculateConfirmations_spec :
    (∀ l t vl vt, stringToBigInt l = some vl → stringToBigInt t = some vt →
       l ≠ "" → t ≠ "" → t ≠ "0x0" →
       calculateConfirmations l t =
         if vl - vt < 0 then "0" else goIntString (vl - vt + 1)) ∧
    calculateConfirmations "0xb" "0xb" = "1" ∧
    calculateConfirmations "0x1" "0xb" = "0" ∧
    calculateConfirmations "0x10000000000000000" "0x1" = "18446744073709551616" ∧
    (∀ l t, l ≠ "" → t ≠ "" → t ≠ "0x0" →
       stringToBigInt l = none ∨ stringToBigInt t = none →
       calculateConfirmations l t = "error") ∧
    (∀ l t, l = "" ∨ t = "" ∨ t = "0x0" → calculateConfirmations l t = "") := by
  refine ⟨?_, by decide, by decide, by decide, ?_, ?_⟩
  · intro l t vl vt hl ht hl0 ht0 ht1
    simp [calculateConfirmations, hl0, ht0, ht1, hl, ht]
  · intro l t hl0 ht0 ht1 h
    rcases h with h | h
    · simp [calculateConfirmations, hl0, ht0, ht1, h]
    · cases hsl : stringToBigInt l <;>
        simp [calculateConfirmations, hl0, ht0, ht1, h, hsl]
  · intro l t h
    rcases h with h | h | h <;> simp [calculateConfirmations, h]

/-- C3 witness: the quantified parts applied at concrete inputs. -/
theorem calculateConfirmations_spec_witness :
    calculateConfirmations "0xc" "0xb" = "2" ∧
    calculateConfirmations "0xzz" "0xb" = "error" ∧
    calculateConfirmations "" "0xb" = "" := by
  refine ⟨?_, ?_, ?_⟩
  · have h := calculateConfirmations_spec.1 "0xc" "0xb" 12 11 (by decide) (by decide)
      (by decide) (by decide) (by decide)
    simpa using h
  · exact calculateConfirmations_spec.2.2.2.2.1 "0xzz" "0xb" (by decide) (by decide)
      (by decide) (Or.inl (by decide))
  · exact calculateConfirmations_spec.2.2.2.2.2 "" "0xb" (Or.inl rfl)

/-- C4: hexToDecimal maps every string 0x followed by lowercase hex
digits to the base-10 representation of the denoted integer, maps the
empty string to itself and bare 0x to 0, returns non-0x-prefixed input
unchanged, and returns input with malformed hex after the prefix
unchanged. -/
theorem hexToDecimal_spec :
    (∀ ds : List Char, ds ≠ [] → (∀ c ∈ ds, c ∈ lowerHexDigits) →
       hexToDecimal ⟨'0' :: 'x' :: ds⟩ = Nat.repr (hexDigitsNatValue ds)) ∧
    hexToDecimal "" = "" ∧
    hexToDecimal "0x" = "0" ∧
    (∀ s : String, goStartsWith s "0x" = false → hexToDecimal s = s) ∧
    (∀ ds : List Char, ds ≠ [] → goSetString 16 ds = none →
       hexToDecimal ⟨'0' :: 'x' :: ds⟩ = ⟨'0' :: 'x' :: ds⟩) := by
  refine ⟨?_, rfl, rfl, ?_, ?_⟩
  · intro ds hne hmem
    obtain ⟨c, cs, rfl⟩ := List.exists_cons_of_ne_nil hne
    rw [hexToDecimal_cons, goSetString16_of_hex c cs hmem]
    exact goIntString_ofNat _
  · intro s h
    simp [hexToDecimal, h]
  · intro ds hne hparse
    obtain ⟨c, cs, rfl⟩ := List.exists_cons_of_ne_nil hne
    rw [hexToDecimal_cons, hparse]

/-- C4 witness: the quantified parts applied at concrete inputs. -/
theorem hexToDecimal_spec_witness :
    hexToDecimal "0xb" = "11" ∧ hexToDecimal "abc" = "abc" ∧ hexToDecimal "0xzz" = "0xzz" := by
  refine ⟨?_, ?_, ?_⟩
  · have h := hexToDecimal_spec.1 ['b'] (by decide) (by decide)
    simpa using h
  · exact hexToDecimal_spec.2.2.2.1 "abc" (by decide)
  · have h := hexToDecimal_spec.2.2.2.2 ['z', 'z'] (by decide) (by decide)
    simpa using h

/-- C5 counterexample: a parsable value of 64 bits is truncated by the
int64 conversion, so 0x10000000000000000 (2 ^ 64, which parses as such)
renders as 0 (Legacy) and not as its bare decimal string. -/
theorem formatTransactionType_counterexample :
    formatTransactionType "0x10000000000000000" = "0 (Legacy)" ∧
    formatTransactionType "0x10000000000000000" ≠ "18446744073709551616" ∧
    stringToBigInt "0x10000000000000000" = some 18446744073709551616 := by
  refine ⟨by decide, by decide, by decide⟩

/-- C5 amended: formatTransactionType maps empty and bare-0x input to
0 (Legacy), maps 0/1/2/3 to the labeled constants, returns unparsable
input unchanged, and renders any other parsable value as the bare
decimal string of its truncation to int64 (Go big.Int.Int64); the
rendering is the value itself only within the int64 range, while wider
values silently wrap (0x10000000000000000 renders as 0 (Legacy),
0x10000000000000005 as 5, 0x8000000000000000 as -9223372036854775808). -/
theorem formatTransactionType_amended :
    formatTransactionType "" = "0 (Legacy)" ∧
    formatTransactionType "0x" = "0 (Legacy)" ∧
    formatTransactionType "0x0" = "0 (Legacy)" ∧
    formatTransactionType "0x1" = "1 (Access List)" ∧
    formatTransactionType "0x2" = "2 (EIP-1559)" ∧
    formatTransactionType "0x02" = "2 (EIP-1559)" ∧
    formatTransactionType "0x3" = "3 (EIP-4844)" ∧
    formatTransactionType "0xa" = "10" ∧
    (∀ s v, s ≠ "" → s ≠ "0x" → stringToBigInt s = some v →
       -(2 ^ 63) ≤ v → v < 2 ^ 63 → v ≠ 0 → v ≠ 1 → v ≠ 2 → v ≠ 3 →
       formatTransactionType s = goIntString v) ∧
    (∀ s, s ≠ "" → s ≠ "0x" → stringToBigInt s = none → formatTransactionType s = s) ∧
    (∀ bi : Int, stringToBigInt "0x10000000000000000" = some bi → goInt64 bi = 0) ∧
    formatTransactionType "0x10000000000000005" = "5" ∧
    formatTransactionType "0x8000000000000000" = "-9223372036854775808" := by
  refine ⟨rfl, rfl, by decide, by decide, by decide, by decide, by decide, by decide,
    ?_, ?_, ?_, by decide, by decide⟩
  · intro s v hs h0 hp hlo hhi h0v h1v h2v h3v
    simp [formatTransactionType, hs, h0, hp, goInt64_eq_self v hlo hhi, h0v, h1v, h2v, h3v]
  · exact formatTransactionType_unparsable
  · intro bi h
    have : bi = 18446744073709551616 := by
      have h2 : stringToBigInt "0x10000000000000000" = some 18446744073709551616 := by decide
      rw [h] at h2
      exact (Option.some.inj h2)
    rw [this]; decide

/-- C5 witness: the quantified parts applied at concrete inputs. -/
theorem formatTransactionType_amended_witness :
    formatTransactionType "0x9" = "9" ∧ formatTransactionType "zz" = "zz" := by
  constructor
  · have h := formatTransactionType_amended.2.2.2.2.2.2.2.2.1 "0x9" 9 (by decide) (by decide)
      (by decide) (by decide) (by decide) (by decide) (by decide) (by decide) (by decide)
    simpa using h
  · exact formatTransactionType_amended.2.2.2.2.2.2.2.2.2.1 "zz" (by decide) (by decide)
      (by decide)

/-- C10: a non-0x-prefixed input to formatTransactionType is parsed in
base 10 with an optional sign rather than treated as unparsable (2 maps
to the EIP-1559 label and -5 renders as -5), and only inputs failing
the base-10 (unprefixed) or base-16 (prefixed) parse are returned
unchanged. -/
theorem formatTransactionType_base10 :
    formatTransactionType "2" = "2 (EIP-1559)" ∧
    formatTransactionType "-5" = "-5" ∧
    formatTransactionType "+7" = "7" ∧
    stringToBigInt "2" = some 2 ∧
    stringToBigInt "-5" = some (-5) ∧
    (∀ s, s ≠ "" → s ≠ "0x" → stringToBigInt s = none → formatTransactionType s = s) := by
  refine ⟨by decide, by decide, by decide, by decide, by decide,
    formatTransactionType_unparsable⟩

/-- C10 witness: the quantified part applied at a concrete input. -/
theorem formatTransactionType_base10_witness :
    formatTransactionType "12t" = "12t" := by
  exact formatTransactionType_base10.2.2.2.2.2 "12t" (by decide) (by decide) (by decide)

set_option maxRecDepth 8000 in
/-- C6 counterexample: the output of formatValue is not always the exact
decimal representation of the value divided by 10 ^ 18. The input
0xde0b6b3a76400004 parses to 16000000000000000004 wei, whose exact
quotient is 16.000000000000000004, but the big.Float pathway (precision
max(64, bit length) with shortest round-trip rendering) prints
16.000000000000000003 ETH. -/
theorem formatValue_counterexample :
    formatValue "0xde0b6b3a76400004" = "16.000000000000000003 ETH" ∧
    formatValue "0xde0b6b3a76400004" ≠ "16.000000000000000004 ETH" ∧
    stringToBigInt "0xde0b6b3a76400004" = some 16000000000000000004 := by
  refine ⟨by decide, by decide, by decide⟩

set_option maxRecDepth 8000 in
/-- C6 amended: formatValue divides the parsed wei value by 10 ^ 18 as a
big.Float of precision max(64, bit length) and prints the shortest
decimal that round-trips at that precision; this is the exact quotient
on the spec examples (1 ETH, 0.5 ETH, 0 ETH for 0x0 and for bare 0x)
but may differ from the exact decimal in the last digit for values of
2 ^ 63 wei and above; empty or non-0x-prefixed input passes through
unchanged. -/
theorem formatValue_amended :
    formatValue "0xde0b6b3a7640000" = "1 ETH" ∧
    formatValue "0x6f05b59d3b20000" = "0.5 ETH" ∧
    formatValue "0x0" = "0 ETH" ∧
    formatValue "0x" = "0 ETH" ∧
    (∀ s : String, s = "" ∨ goStartsWith s "0x" = false → formatValue s = s) ∧
    formatValue "0xde0b6b3a76400004" = "16.000000000000000003 ETH" := by
  refine ⟨by decide, by decide, by decide, by decide, ?_, by decide⟩
  intro s h
  simp only [formatValue, hexToFloat, if_pos h]

/-- C6 witness: the pass-through part applied at concrete inputs. -/
theorem formatValue_amended_witness :
    formatValue "123" = "123" ∧ formatValue "" = "" := by
  exact ⟨formatValue_amended.2.2.2.2.1 "123" (Or.inr (by decide)),
    formatValue_amended.2.2.2.2.1 "" (Or.inl rfl)⟩

set_option maxRecDepth 8000 in
/-- C7: formatTransactionFee multiplies gas used by gas price as big
integers and renders the product divided by 10 ^ 18 as ETH (21000 gas
at 1 Gwei gives 0.000021 ETH, and a product far beyond 64 bits is not
truncated), and returns the empty string when either input is empty. -/
theorem formatTransactionFee_spec :
    formatTransactionFee "0x5208" "0x3b9aca00" = "0.000021 ETH" ∧
    formatTransactionFee "0x5208" "0x77359400" = "0.000042 ETH" ∧
    formatTransactionFee "0x0" "0x3b9aca00" = "0 ETH" ∧
    formatTransactionFee "0xde0b6b3a7640000" "0xde0b6b3a7640000" =
      "1000000000000000000 ETH" ∧
    (∀ g, formatTransactionFee "" g = "") ∧
    (∀ g, formatTransactionFee g "" = "") := by
  refine ⟨by decide, by decide, by decide, by decide, ?_, ?_⟩
  · intro g; simp [formatTransactionFee]
  · intro g; simp [formatTransactionFee]

/-- C7 witness: the empty-input parts applied at concrete inputs. -/
theorem formatTransactionFee_spec_witness :
    formatTransactionFee "" "0x3b9aca00" = "" ∧ formatTransactionFee "0x5208" "" = "" := by
  exact ⟨formatTransactionFee_spec.2.2.2.2.1 "0x3b9aca00",
    formatTransactionFee_spec.2.2.2.2.2 "0x5208"⟩

/-- C8: the transaction-by-hash classification checks for an explicit
error message first and fails with exactly that message, then maps an
absent or null result to the not-found message, and then maps a string
result to that string prefixed with Etherscan API error: and suffixed
with the network hint exactly when the string contains Error!. -/
theorem classifyTxResponse_spec :
    (∀ (r : ProxyTxResponse) (m : String), r.error = some m →
       classifyTxResponse r = .error m) ∧
    (∀ r : ProxyTxResponse, r.error = none →
       r.result = .absent ∨ r.result = .null →
       classifyTxResponse r = .error "transaction not found or invalid response") ∧
    (∀ s, goContains s "Error!" = true →
       classifyTxResponse ⟨none, .str s⟩ =
         .error ("Etherscan API error: " ++ s ++ " (Is the hash on the correct network?)")) ∧
    (∀ s, goContains s "Error!" = false →
       classifyTxResponse ⟨none, .str s⟩ = .error ("Etherscan API error: " ++ s)) := by
  refine ⟨?_, ?_, ?_, ?_⟩
  · intro r m h
    unfold classifyTxResponse
    rw [h]
  · intro r he hres
    unfold classifyTxResponse
    rw [he]
    rcases hres with h | h <;> rw [h]
  · intro s h
    simp [classifyTxResponse, h]
  · intro s h
    simp [classifyTxResponse, h]

/-- C8 witness: each classification arm applied at a concrete input. -/
theorem classifyTxResponse_spec_witness :
    classifyTxResponse ⟨some "Resource not found", .null⟩ = .error "Resource not found" ∧
    classifyTxResponse ⟨none, .null⟩ =
      .error "transaction not found or invalid response" ∧
    classifyTxResponse ⟨none, .str "Error! Transaction hash not found"⟩ =
      .error "Etherscan API error: Error! Transaction hash not found (Is the hash on the correct network?)" ∧
    classifyTxResponse ⟨none, .str "Max rate limit reached"⟩ =
      .error "Etherscan API error: Max rate limit reached" := by
  refine ⟨classifyTxResponse_spec.1 _ "Resource not found" rfl,
    classifyTxResponse_spec.2.1 _ rfl (Or.inr rfl), ?_, ?_⟩
  · exact classifyTxResponse_spec.2.2.1 "Error! Transaction hash not found" (by decide)
  · exact classifyTxResponse_spec.2.2.2 "Max rate limit reached" (by decide)

/-- C9: the receipt call maps status 0x1 to success and 0x0 to failed,
maps any other status to Pending, and maps a literally-null receipt
result to a successful Pending outcome with no error. -/
theorem receiptStatus_spec :
    (∀ (body : String) (r : ProxyReceiptResponse), r.error = none →
       ¬(body = "\x7b\"result\":null\x7d" ∨ body = "\x7b\"result\": null\x7d") →
       r.result.status = "0x1" →
       fetchTransactionReceiptCore body r = .ok ("success", r.result.gasUsed)) ∧
    (∀ (body : String) (r : ProxyReceiptResponse), r.error = none →
       ¬(body = "\x7b\"result\":null\x7d" ∨ body = "\x7b\"result\": null\x7d") →
       r.result.status = "0x0" →
       fetchTransactionReceiptCore body r = .ok ("failed", r.result.gasUsed)) ∧
    (∀ (body : String) (r : ProxyReceiptResponse), r.error = none →
       ¬(body = "\x7b\"result\":null\x7d" ∨ body = "\x7b\"result\": null\x7d") →
       r.result.status ≠ "0x1" → r.result.status ≠ "0x0" →
       fetchTransactionReceiptCore body r = .ok ("Pending", r.result.gasUsed)) ∧
    (∀ r : ProxyReceiptResponse, r.error = none →
       fetchTransactionReceiptCore "\x7b\"result\":null\x7d" r = .ok ("Pending", "")) := by
  refine ⟨?_, ?_, ?_, ?_⟩
  · intro body r he hb h1
    unfold fetchTransactionReceiptCore
    rw [he, if_neg hb]
    simp [h1]
  · intro body r he hb h0
    unfold fetchTransactionReceiptCore
    rw [he, if_neg hb]
    simp [h0]
  · intro body r he hb h1 h0
    unfold fetchTransactionReceiptCore
    rw [he, if_neg hb]
    simp [h1, h0]
  · intro r he
    unfold fetchTransactionReceiptCore
    rw [he, if_pos (Or.inl rfl)]

/-- C9 witness: each receipt arm applied at a concrete input. -/
theorem receiptStatus_spec_witness :
    fetchTransactionReceiptCore "x" ⟨none, { status := "0x1", gasUsed := "0x5208" }⟩ =
      .ok ("success", "0x5208") ∧
    fetchTransactionReceiptCore "x" ⟨none, { status := "0x0", gasUsed := "0x5208" }⟩ =
      .ok ("failed", "0x5208") ∧
    fetchTransactionReceiptCore "x" ⟨none, { status := "0x7", gasUsed := "" }⟩ =
      .ok ("Pending", "") ∧
    fetchTransactionReceiptCore "\x7b\"result\":null\x7d" ⟨none, {}⟩ =
      .ok ("Pending", "") := by
  refine ⟨receiptStatus_spec.1 "x" ⟨none, { status := "0x1", gasUsed := "0x5208" }⟩
      rfl (by decide) rfl,
    receiptStatus_spec.2.1 "x" ⟨none, { status := "0x0", gasUsed := "0x5208" }⟩
      rfl (by decide) rfl, ?_,
    receiptStatus_spec.2.2.2 ⟨none, {}⟩ rfl⟩
  exact receiptStatus_spec.2.2.1 "x" ⟨none, { status := "0x7", gasUsed := "" }⟩
    rfl (by decide) (by decide) (by decide)

/-- C2 counterexample: a resolution of FetchTransaction that returns a
record with no overall error but whose status field is the empty
string: when the receipt call fails with an error, the discarded error
leaves the empty status returned alongside it in the record. -/
theorem fetchTransaction_status_counterexample :
    Except.map Transaction.status
      (fetchTransaction ⟨none, .obj { hash := "0xabc", blockNumber := "0x1" }⟩
        ⟨.ok "0x1", .error "connection refused", .ok "2024-02-20T20:12:48Z"⟩) =
      .ok "" := by
  rfl

/-- C2 amended: the status of a successfully resolved record is
non-empty whenever the receipt call itself returned without error (its
ok outcomes are exactly Pending, success and failed), but when the
receipt call fails with an error, FetchTransaction still succeeds and
leaves the status field empty. -/
theorem fetchTransaction_status_amended :
    (∀ (r : ProxyTxResponse) (deps : DependentCalls) (rec : Transaction)
       (body : String) (rr : ProxyReceiptResponse) (s g : String),
       fetchTransactionReceiptCore body rr = .ok (s, g) →
       deps.receipt = .ok (s, g) →
       fetchTransaction r deps = .ok rec → rec.status ≠ "") ∧
    (∀ (r : ProxyTxResponse) (deps : DependentCalls) (rec : Transaction) (e : String),
       deps.receipt = .error e →
       fetchTransaction r deps = .ok rec → rec.status = "") := by
  constructor
  · intro r deps rec body rr s g hcore hdep hok
    unfold fetchTransaction at hok
    obtain ⟨t, ht, hrec⟩ := Except_map_eq_ok _ _ _ hok
    have hs := receiptCore_ok_status body rr s g hcore
    subst hrec
    simp only [fetchTransactionMerge, receiptValues, hdep]
    rcases hs with h | h | h <;> subst h <;> decide
  · intro r deps rec e hdep hok
    unfold fetchTransaction at hok
    obtain ⟨t, ht, hrec⟩ := Except_map_eq_ok _ _ _ hok
    subst hrec
    simp [fetchTransactionMerge, receiptValues, hdep]

/-- C2 witness: the amended parts applied at concrete inputs. -/
theorem fetchTransaction_status_amended_witness :
    (fetchTransactionMerge { hash := "0xabc" }
      ⟨.ok "0x1", .ok ("success", "0x5208"), .ok "ts"⟩).status ≠ "" ∧
    (fetchTransactionMerge { hash := "0xabc" }
      ⟨.ok "0x1", .error "connection refused", .ok "ts"⟩).status = "" := by
  constructor
  · exact fetchTransaction_status_amended.1 ⟨none, .obj { hash := "0xabc" }⟩
      ⟨.ok "0x1", .ok ("success", "0x5208"), .ok "ts"⟩ _ "x"
      ⟨none, { status := "0x1", gasUsed := "0x5208" }⟩ "success" "0x5208"
      rfl rfl rfl
  · exact fetchTransaction_status_amended.2 ⟨none, .obj { hash := "0xabc" }⟩
      ⟨.ok "0x1", .error "connection refused", .ok "ts"⟩ _ "connection refused" rfl rfl

/-- C1: under the spec-modelled retry policy, a first attempt that is a
rate-limit string result is retried and a structured second attempt is
returned as the final result with exactly one retry (the returned
attempt index is 1), the merged record comes from the second attempt,
and any non-retryable failure is returned immediately with no retry. -/
theorem fetchTxWithRetry_spec :
    (∀ (attempts : Nat → ProxyTxResponse) (s : String) (t : Transaction) (b : Nat),
       attempts 0 = ⟨none, .str s⟩ → isRateLimitMsg s = true →
       attempts 1 = ⟨none, .obj t⟩ →
       fetchTxWithRetry attempts 0 (b + 1) = (1, .ok t)) ∧
    (∀ (attempts : Nat → ProxyTxResponse) (deps : DependentCalls) (s : String)
       (t : Transaction) (b : Nat),
       attempts 0 = ⟨none, .str s⟩ → isRateLimitMsg s = true →
       attempts 1 = ⟨none, .obj t⟩ →
       fetchTransactionRetrying attempts deps 0 (b + 1) =
         (1, .ok (fetchTransactionMerge t deps))) ∧
    (∀ (attempts : Nat → ProxyTxResponse) (e : String) (b : Nat),
       classifyTxResponse (attempts 0) = .error e →
       retryableTxResponse (attempts 0) = false →
       fetchTxWithRetry attempts 0 b = (0, .error e)) := by
  have main : ∀ (attempts : Nat → ProxyTxResponse) (s : String) (t : Transaction) (b : Nat),
      attempts 0 = ⟨none, .str s⟩ → isRateLimitMsg s = true →
      attempts 1 = ⟨none, .obj t⟩ →
      fetchTxWithRetry attempts 0 (b + 1) = (1, .ok t) := by
    intro att s t b h0 hrl h1
    have hcl : classifyTxResponse (att 0) =
        .error (if goContains s "Error!" = true then
          "Etherscan API error: " ++ s ++ " (Is the hash on the correct network?)"
        else "Etherscan API error: " ++ s) := by
      rw [h0]
      cases hc : goContains s "Error!" with
      | false => simp [classifyTxResponse, hc]
      | true => simp [classifyTxResponse, hc]
    have hr : retryableTxResponse (att 0) = true := by
      rw [h0]
      simp [retryableTxResponse, hrl]
    simp only [fetchTxWithRetry, hcl, hr, if_pos]
    cases b with
    | zero => simp [fetchTxWithRetry, h1, classifyTxResponse]
    | succ b => simp [fetchTxWithRetry, h1, classifyTxResponse]
  refine ⟨main, ?_, ?_⟩
  · intro att deps s t b h0 hrl h1
    unfold fetchTransactionRetrying
    rw [main att s t b h0 hrl h1]
    rfl
  · intro att e b hclass hret
    cases b with
    | zero => simp [fetchTxWithRetry, hclass]
    | succ b => simp [fetchTxWithRetry, hclass, hret]

/-- C1 witness: the retry and the immediate-failure parts applied at
concrete attempt sequences. -/
theorem fetchTxWithRetry_spec_witness :
    fetchTxWithRetry
      (fun i => if i = 0 then ⟨none, .str "Max rate limit reached"⟩ else ⟨none, .obj {}⟩)
      0 1 = (1, .ok {}) ∧
    fetchTxWithRetry (fun _ => ⟨none, .null⟩) 0 3 =
      (0, .error "transaction not found or invalid response") := by
  constructor
  · exact fetchTxWithRetry_spec.1 _ "Max rate limit reached" {} 0 rfl (by decide) rfl
  · exact fetchTxWithRetry_spec.2.2 _ "transaction not found or invalid response" 3 rfl rfl

end EtherscanTui
